import Mathlib

/-!
Shallow embedding of `src/packages/source-wordpress/index.js` (a WordPress
source plugin: paginated REST fetching, a bounded work queue, response
normalization and graph-node construction), together with theorems settling
the specification claims about it.

Conventions of the embedding:
* Raw records are opaque; the record type is a type parameter `α` where the
  code is generic (fetching, normalization) and concrete structures
  (`PostRecord`, `TermRecord`) where the graph builder reads fields.
* A response body is either already an array of records or raw text
  (`JsValue`); the platform `JSON.parse` is an external collaborator and is
  passed in as a function `jsonParse : String → Option (JsValue α)` returning
  `none` exactly when the text is not valid JSON.
* JavaScript promises settle at most once: `PState` keeps the first
  resolution or rejection and ignores later ones (`settleResolve`,
  `settleReject`).
* `parseInt` of the pagination headers is modelled by `Option Nat`: `none`
  stands for `NaN` (header absent or non-numeric), `some n` for a parsed
  number.  JS truthiness of the parsed values is made explicit
  (`totalItemsFalsy`, `totalPagesLE1`).
-/

/-- A response body value: either already a sequence of records (a JS array),
or raw text (for example an HTML error page served with status 200). -/
inductive JsValue (α : Type) where
  | arr (records : List α)
  | raw (s : String)
deriving DecidableEq, Repr

/-- The error message built by `ensureArrayData` (index.js lines 183–187):
the failing url followed by the trimmed body truncated to 150 characters
(`data.trim().substring(0, 150)`). -/
def malformedMsg (url : String) (s : String) : String :=
  "Failed to fetch " ++ url ++ "\n" ++
  "Expected JSON response but got:\n" ++
  (s.trim.take 150) ++ "...\n"

/-- `ensureArrayData` (index.js lines 178–191): if the body is already an
array it is returned as-is; otherwise the raw text is parsed as JSON, and a
parse failure raises the malformed-response error. -/
def ensureArrayData {α : Type} (jsonParse : String → Option (JsValue α))
    (url : String) (data : JsValue α) : Except String (JsValue α) :=
  match data with
  | .arr rs => .ok (.arr rs)
  | .raw s =>
    match jsonParse s with
    | some v => .ok v
    | none => .error (malformedMsg url s)

/-- The first-page response of `fetchPaged`: the pagination headers
`x-wp-total` and `x-wp-totalpages` after `parseInt` (`none` = `NaN`), and the
body. -/
structure PageResponse (α : Type) where
  totalItems : Option Nat
  totalPages : Option Nat
  data : JsValue α
deriving DecidableEq, Repr

/-- JS truthiness test `!totalItems` (index.js line 146): true when the
parsed total is `NaN` (absent header) or `0`. -/
def totalItemsFalsy : Option Nat → Bool
  | none => true
  | some 0 => true
  | some (_ + 1) => false

/-- JS comparison `totalPages <= 1` (index.js line 146): `NaN <= 1` is
false in JS, so an absent header does not satisfy the test. -/
def totalPagesLE1 : Option Nat → Bool
  | none => false
  | some n => decide (n ≤ 1)

/-- The url of one queued page task (index.js lines 155–156):
`querystring.stringify` of `{ per_page, page }` appended to the endpoint. -/
def pageUrl (url : String) (perPage : Nat) (page : Nat) : String :=
  url ++ "?per_page=" ++ toString perPage ++ "&page=" ++ toString page

/-- The tasks pushed onto the queue (index.js lines 154–157): one per page
from 2 to `totalPages` inclusive.  When `totalPages` is `NaN` the JS loop
condition `page <= totalPages` is immediately false, hence no tasks. -/
def pageTasks (url : String) (perPage : Nat) (totalPages : Option Nat) :
    List String :=
  (List.range' 2 (totalPages.getD 0 - 1)).map (pageUrl url perPage)

/-- What the synchronous part of `fetchPaged` (index.js lines 133–157) does
with the first response, before any queue event fires. -/
inductive FetchOutcome (α : Type) where
  /-- The returned promise never settles.  The promise executor is an
  `async` function: an exception thrown inside it (in particular a rejection
  of the un-guarded first `await axios.get` on line 136) rejects the
  executor functions own discarded promise, not the promise under
  construction, which therefore stays pending forever. -/
  | hang
  /-- `reject e` was called before any queue was created. -/
  | rejected (e : String)
  /-- `resolve v` was called with the normalized first page (single-page
  case, index.js lines 146–148). -/
  | resolved (v : JsValue α)
  /-- A queue was created and loaded with one task per remaining page
  (index.js lines 150–157); `firstData` is the normalized first page already
  accumulated in `res.data`. -/
  | fanout (firstData : JsValue α) (tasks : List String)
deriving DecidableEq, Repr

/-- The synchronous part of `fetchPaged` (index.js lines 133–157) as a
function of the first HTTP result.  `Except.error` is a rejected first
request (network or non-2xx). -/
def fetchPagedStart {α : Type} (jsonParse : String → Option (JsValue α))
    (url : String) (perPage : Nat)
    (firstResponse : Except String (PageResponse α)) : FetchOutcome α :=
  match firstResponse with
  | .error _ => .hang
  | .ok res =>
    match ensureArrayData jsonParse url res.data with
    | .error e => .rejected e
    | .ok v =>
      if totalItemsFalsy res.totalItems || totalPagesLE1 res.totalPages then
        .resolved v
      else
        .fanout v (pageTasks url perPage res.totalPages)

/-- Total number of HTTP requests the operation issues: the synchronous
first request plus one request per queued task (`taskHandler`, index.js
lines 124–131, performs exactly one `axios.get` per task). -/
def fetchRequestCount {α : Type} (jsonParse : String → Option (JsValue α))
    (url : String) (perPage : Nat)
    (firstResponse : Except String (PageResponse α)) : Nat :=
  match fetchPagedStart jsonParse url perPage firstResponse with
  | .fanout _ tasks => 1 + tasks.length
  | _ => 1

/-- The settlement state of the promise returned by `fetchPaged`. -/
inductive PState (α : Type) where
  | pend
  | resolved (vs : List α)
  | rejected (e : String)
deriving DecidableEq, Repr

/-- Calling `reject e` on a promise: settles it only if still pending. -/
def settleReject {α : Type} (p : PState α) (e : String) : PState α :=
  match p with
  | .pend => .rejected e
  | s => s

/-- Calling `resolve vs` on a promise: settles it only if still pending. -/
def settleResolve {α : Type} (p : PState α) (vs : List α) : PState α :=
  match p with
  | .pend => .resolved vs
  | s => s

/-- The state of one multi-page fetch operation: the work queue (pending
task urls, running task urls, destroyed flag), the accumulating `res.data`
array, and the promise returned by `fetchPaged`. -/
structure QState (α : Type) where
  pending : List String
  running : List String
  acc : List α
  destroyed : Bool
  promise : PState α
deriving DecidableEq, Repr

/-- The state right after index.js line 157: first-page records accumulated,
all remaining-page tasks pushed, nothing dispatched, promise pending. -/
def initQState {α : Type} (firstRecords : List α) (tasks : List String) :
    QState α :=
  ⟨tasks, [], firstRecords, false, .pend⟩

/-- The rejection reason built by the `task_failed` handler (index.js line
160): the template string interpolating the task id and the error. -/
def failMsg (u err : String) : String :=
  u ++ " failed with error: " ++ err

/-- Queue dispatch: a pending task starts running. -/
def dispatchEffect {α : Type} (s : QState α) (u : String)
    (rest : List String) : QState α :=
  { s with pending := rest, running := s.running ++ [u] }

/-- The `task_finish` handler (index.js lines 164–170) when
`ensureArrayData` succeeds with an array: its records are appended to
`res.data` (this happens whether or not the promise has already settled). -/
def finishOkEffect {α : Type} (s : QState α) (u : String) (rs : List α) :
    QState α :=
  { s with running := s.running.erase u, acc := s.acc ++ rs }

/-- The `task_finish` handler (index.js lines 164–170) when
`ensureArrayData` throws: the error is passed to `reject` and nothing else
happens — in particular the queue is NOT destroyed. -/
def finishMalformedEffect {α : Type} (s : QState α) (u : String)
    (e : String) : QState α :=
  { s with running := s.running.erase u,
           promise := settleReject s.promise e }

/-- The `task_failed` handler (index.js lines 159–162): `reject` with the
interpolated message, then `queue.destroy()`. -/
def taskFailedEffect {α : Type} (s : QState α) (u err : String) : QState α :=
  { s with running := s.running.erase u,
           destroyed := true,
           promise := settleReject s.promise (failMsg u err) }

/-- The `drain` handler (index.js lines 172–174): resolve with the
accumulated `res.data`. -/
def drainEffect {α : Type} (s : QState α) : QState α :=
  { s with promise := settleResolve s.promise s.acc }

/-- Modelled from the spec: the Bounded Work Queue of spec section 4.2 is
the external `better-queue` dependency, whose implementation is not under
`src/`.  Its mechanics are taken from the spec — a pending task is
dispatched only while fewer than `conc` tasks are running and the queue has
not been destroyed (hard concurrency cap), each completed task fires its
success or failure callback, `destroy` halts further dispatch, and `drain`
fires once the queue is empty.  The effect of each event — what the
handlers registered by `fetchPaged` do (index.js lines 150–174) — is
translated from the source (`dispatchEffect`, `finishOkEffect`,
`finishMalformedEffect`, `taskFailedEffect`, `drainEffect`).  A successful
task whose normalized body is a non-array JSON value is not modelled (the
spread `res.data.push(...)` on such a value is outside every claim). -/
inductive QStep {α : Type} (jsonParse : String → Option (JsValue α))
    (conc : Nat) : QState α → QState α → Prop where
  | dispatch (s : QState α) (u : String) (rest : List String) :
      s.destroyed = false → s.running.length < conc →
      s.pending = u :: rest →
      QStep jsonParse conc s (dispatchEffect s u rest)
  | finishOk (s : QState α) (u : String) (body : JsValue α) (rs : List α) :
      u ∈ s.running → ensureArrayData jsonParse u body = .ok (.arr rs) →
      QStep jsonParse conc s (finishOkEffect s u rs)
  | finishMalformed (s : QState α) (u : String) (body : JsValue α)
      (e : String) :
      u ∈ s.running → ensureArrayData jsonParse u body = .error e →
      QStep jsonParse conc s (finishMalformedEffect s u e)
  | taskFailed (s : QState α) (u err : String) :
      u ∈ s.running →
      QStep jsonParse conc s (taskFailedEffect s u err)
  | drain (s : QState α) :
      s.pending = [] → s.running = [] → s.destroyed = false →
      QStep jsonParse conc s (drainEffect s)

/-- Zero or more queue events. -/
def QReach {α : Type} (jsonParse : String → Option (JsValue α)) (conc : Nat)
    (s t : QState α) : Prop :=
  Relation.ReflTransGen (QStep jsonParse conc) s t

/-- A dispatch event is possible in `s`: some task is pending, the queue is
not destroyed, and the concurrency cap leaves room. -/
def DispatchEnabled {α : Type} (conc : Nat) (s : QState α) : Prop :=
  s.destroyed = false ∧ s.pending ≠ [] ∧ s.running.length < conc

/-- Raw string for a content-item id (index.js line 44): `post-` followed by
the remote numeric id. -/
def makePostIdRaw (id : Nat) : String :=
  "post-" ++ toString id

/-- Raw string for a taxonomy-term id (index.js line 45): `term-` followed
by the remote numeric id. -/
def makeTermIdRaw (id : Nat) : String :=
  "term-" ++ toString id

/-- `makePostId` (index.js line 44): the prefixed raw string passed through
the stores id-normalization function `source.makeUid`. -/
def makePostId (makeUid : String → String) (id : Nat) : String :=
  makeUid (makePostIdRaw id)

/-- `makeTermId` (index.js line 45). -/
def makeTermId (makeUid : String → String) (id : Nat) : String :=
  makeUid (makeTermIdRaw id)

/-- A raw content record as read by the graph builder (index.js lines
78–101).  Rendered-object fields (`title`, `content`, `excerpt`) are `some`
of their `rendered` text when the property is present and truthy, `none`
otherwise; `props` holds the taxonomy reference properties actually present
on the record (`hasOwnProperty`), each an array of remote term ids. -/
structure PostRecord where
  id : Nat
  type : String
  title : Option String
  date : Option String
  slug : String
  content : Option String
  excerpt : Option String
  props : List (String × List Nat)
deriving DecidableEq, Repr

/-- A raw taxonomy-term record as read by the graph builder (index.js lines
110–118). -/
structure TermRecord where
  id : Nat
  taxonomy : String
  slug : String
  name : String
  count : Nat
deriving DecidableEq, Repr

/-- A concrete content record used as test input: remote id, `type`
property, slug, and taxonomy reference properties; all rendered fields
absent. -/
def samplePost (n : Nat) (ty slug : String)
    (props : List (String × List Nat)) : PostRecord :=
  ⟨n, ty, none, none, slug, none, none, props⟩

/-- `new Date(s)`: the platform Date value, an opaque deterministic function
of the source string. -/
structure JsDate where
  raw : String
deriving DecidableEq, Repr

/-- The `fields` object of a content node (index.js lines 96–99). -/
structure PostFields where
  content : String
  excerpt : String
deriving DecidableEq, Repr

/-- The `fields` object of a term node (index.js lines 115–117). -/
structure TermFields where
  count : Nat
deriving DecidableEq, Repr

/-- The node record passed to `addNode` for a content record (index.js
lines 91–101). -/
structure PostNode where
  _id : String
  title : String
  date : Option JsDate
  slug : String
  fields : PostFields
  refs : List (String × List String)
deriving DecidableEq, Repr

/-- The node record passed to `addNode` for a term record (index.js lines
111–118). -/
structure TermNode where
  _id : String
  slug : String
  title : String
  fields : TermFields
deriving DecidableEq, Repr

/-- The `refs` object built for one content record (index.js lines 79–89):
for each known taxonomy (in discovery order), if the record has the
taxonomys reference property, map its remote ids to term-namespace stable
ids; absent properties contribute no key. -/
def buildRefs (taxes : List (String × String))
    (lookup : String → Option (List Nat)) (makeUid : String → String) :
    List (String × List String) :=
  taxes.filterMap fun tb =>
    match lookup tb.2 with
    | some ids => some (tb.1, ids.map (makeTermId makeUid))
    | none => none

/-- One iteration of the posts loop body (index.js lines 78–101): the
`addNode` call for one content record, as the pair (typeKey argument, node
record).  Note the typeKey passed is `post.type`, the records own `type`
property. -/
def postToNode (taxes : List (String × String)) (makeUid : String → String)
    (post : PostRecord) : String × PostNode :=
  (post.type,
   { _id := makePostId makeUid post.id,
     title := post.title.getD "",
     date := post.date.map JsDate.mk,
     slug := post.slug,
     fields := { content := post.content.getD "",
                 excerpt := post.excerpt.getD "" },
     refs := buildRefs taxes (fun prop => post.props.lookup prop) makeUid })

/-- One iteration of the taxonomies loop body (index.js lines 110–118):
the `addNode` call for one term record.  The typeKey passed is
`term.taxonomy`. -/
def termToNode (makeUid : String → String) (term : TermRecord) :
    String × TermNode :=
  (term.taxonomy,
   { _id := makeTermId makeUid term.id,
     slug := term.slug,
     title := term.name,
     fields := { count := term.count } })

/-- One `addNode` call, tagged by which loop emitted it. -/
inductive NodeEmission where
  | post (typeKey : String) (node : PostNode)
  | term (typeKey : String) (node : TermNode)
deriving DecidableEq, Repr

/-- The typeKey argument of an `addNode` call. -/
def emissionTypeKey : NodeEmission → String
  | .post k _ => k
  | .term k _ => k

/-- The `_id` field of an emitted node. -/
def emissionId : NodeEmission → String
  | .post _ n => n._id
  | .term _ n => n._id

/-- The `addNode` calls made while processing one content endpoint
(index.js lines 73–103): one per fetched record, in record order.  The
`typeName` of the endpoint only selects the url fetched; the typeKey passed
to `addNode` is `post.type` (index.js line 91), so `typeName` does not
appear in the emissions. -/
def postEndpointEmissions (typeName : String)
    (taxes : List (String × String)) (makeUid : String → String)
    (records : List PostRecord) : List NodeEmission :=
  records.map fun p =>
    NodeEmission.post (postToNode taxes makeUid p).1 (postToNode taxes makeUid p).2

/-- The `addNode` calls made while processing one taxonomy endpoint
(index.js lines 105–120); the typeKey passed is `term.taxonomy` (index.js
line 111). -/
def termEndpointEmissions (typeName : String) (makeUid : String → String)
    (records : List TermRecord) : List NodeEmission :=
  records.map fun t =>
    NodeEmission.term (termToNode makeUid t).1 (termToNode makeUid t).2

/-- All `addNode` calls of one `apply` run (index.js lines 73–120), given
the per-endpoint record sequences produced by the fetches: first every
content endpoint in order, then every taxonomy endpoint in order. -/
def applyNodes (taxes : List (String × String)) (makeUid : String → String)
    (postsByEndpoint : List (List PostRecord))
    (termsByEndpoint : List (List TermRecord)) : List NodeEmission :=
  (postsByEndpoint.flatten.map fun p =>
    NodeEmission.post (postToNode taxes makeUid p).1 (postToNode taxes makeUid p).2) ++
  (termsByEndpoint.flatten.map fun t =>
    NodeEmission.term (termToNode makeUid t).1 (termToNode makeUid t).2)

/-! ### Queue invariants -/

lemma qstep_destroyed_mono {α : Type} {p : String → Option (JsValue α)}
    {c : Nat} {s t : QState α} (h : QStep p c s t)
    (hd : s.destroyed = true) : t.destroyed = true := by
  cases h <;>
    simp_all [dispatchEffect, finishOkEffect, finishMalformedEffect,
      taskFailedEffect, drainEffect]

lemma qreach_destroyed_mono {α : Type} {p : String → Option (JsValue α)}
    {c : Nat} {s t : QState α} (h : QReach p c s t)
    (hd : s.destroyed = true) : t.destroyed = true := by
  induction h with
  | refl => exact hd
  | tail _ hstep ih => exact qstep_destroyed_mono hstep ih

lemma qstep_rejected_stable {α : Type} {p : String → Option (JsValue α)}
    {c : Nat} {s t : QState α} {e : String} (h : QStep p c s t)
    (hr : s.promise = .rejected e) : t.promise = .rejected e := by
  cases h <;>
    simp_all [dispatchEffect, finishOkEffect, finishMalformedEffect,
      taskFailedEffect, drainEffect, settleReject, settleResolve]

lemma qreach_rejected_stable {α : Type} {p : String → Option (JsValue α)}
    {c : Nat} {s t : QState α} {e : String} (h : QReach p c s t)
    (hr : s.promise = .rejected e) : t.promise = .rejected e := by
  induction h with
  | refl => exact hr
  | tail _ hstep ih => exact qstep_rejected_stable hstep ih

lemma QStep.running_bound {α : Type} {p : String → Option (JsValue α)}
    {c : Nat} {s t : QState α} (h : QStep p c s t)
    (hb : s.running.length ≤ c) : t.running.length ≤ c := by
  cases h with
  | dispatch u rest h1 h2 h3 =>
    simp only [dispatchEffect, List.length_append, List.length_singleton]
    omega
  | finishOk u body rs hu _ =>
    exact le_trans (List.erase_sublist u s.running).length_le hb
  | finishMalformed u body e hu _ =>
    exact le_trans (List.erase_sublist u s.running).length_le hb
  | taskFailed u err hu =>
    exact le_trans (List.erase_sublist u s.running).length_le hb
  | drain h1 h2 h3 => exact hb

lemma not_dispatchEnabled_of_destroyed {α : Type} {c : Nat} {s : QState α}
    (hd : s.destroyed = true) : ¬ DispatchEnabled c s := by
  rintro ⟨hf, -, -⟩
  rw [hd] at hf
  cases hf

/-- C10: at most `concurrency` page requests are in flight simultaneously —
in every state reachable from the start of a fetch operation, the number of
running tasks never exceeds `conc`; dispatch is guarded by a strict
comparison against the cap, so the bound is never exceeded even
transiently. -/
theorem fetchPaged_concurrency_cap {α : Type}
    (p : String → Option (JsValue α)) (conc : Nat) (firstRecords : List α)
    (tasks : List String) (s : QState α)
    (h : QReach p conc (initQState firstRecords tasks) s) :
    s.running.length ≤ conc := by
  induction h with
  | refl => simp [initQState]
  | tail _ hstep ih => exact hstep.running_bound ih

/-- Witness for `fetchPaged_concurrency_cap` at a concrete state. -/
theorem fetchPaged_concurrency_cap_witness :
    QReach (fun _ => (none : Option (JsValue Nat))) 3 (initQState [] ["a"])
      (initQState [] ["a"]) ∧
    (initQState ([] : List Nat) ["a"]).running.length ≤ 3 :=
  ⟨Relation.ReflTransGen.refl,
   fetchPaged_concurrency_cap (fun _ => none) 3 [] ["a"] _
     Relation.ReflTransGen.refl⟩

/-- C1: when an enqueued page task fails, the `task_failed` handler fires
(a legal step), and from the resulting state every reachable state has the
promise rejected with the message naming the failing task and its error,
the queue destroyed, and dispatch disabled: no further task is ever
dispatched and the operation can never resolve with a (partial) result
sequence. -/
theorem fetchPaged_task_failure_aborts {α : Type}
    (p : String → Option (JsValue α)) (conc : Nat) (s : QState α)
    (u err : String) (hu : u ∈ s.running) (hpend : s.promise = .pend) :
    QStep p conc s (taskFailedEffect s u err) ∧
    ∀ t, QReach p conc (taskFailedEffect s u err) t →
      t.promise = .rejected (failMsg u err) ∧ t.destroyed = true ∧
      ¬ DispatchEnabled conc t := by
  refine ⟨QStep.taskFailed s u err hu, fun t ht => ?_⟩
  have h0p : (taskFailedEffect s u err).promise = .rejected (failMsg u err) := by
    simp [taskFailedEffect, hpend, settleReject]
  have hp := qreach_rejected_stable ht h0p
  have hd := qreach_destroyed_mono ht (by rfl)
  exact ⟨hp, hd, not_dispatchEnabled_of_destroyed hd⟩

/-- Witness for `fetchPaged_task_failure_aborts`: a one-task queue whose
task fails. -/
theorem fetchPaged_task_failure_aborts_witness :
    (("u1" ∈ (⟨[], ["u1"], [0], false, .pend⟩ : QState Nat).running) ∧
      (⟨[], ["u1"], [0], false, .pend⟩ : QState Nat).promise = .pend) ∧
    ((taskFailedEffect (⟨[], ["u1"], [0], false, .pend⟩ : QState Nat) "u1"
        "boom").promise = .rejected (failMsg "u1" "boom") ∧
      (taskFailedEffect (⟨[], ["u1"], [0], false, .pend⟩ : QState Nat) "u1"
        "boom").destroyed = true ∧
      ¬ DispatchEnabled 2 (taskFailedEffect
        (⟨[], ["u1"], [0], false, .pend⟩ : QState Nat) "u1" "boom")) :=
  ⟨⟨by decide, rfl⟩,
   (fetchPaged_task_failure_aborts (fun _ => none) 2
      (⟨[], ["u1"], [0], false, .pend⟩ : QState Nat) "u1" "boom"
      (by decide) rfl).2 _ Relation.ReflTransGen.refl⟩

/-- C9: when a finished later page has a body that fails normalization, the
`task_finish` handler rejects the promise with the normalization error but
does not destroy the queue: the destroyed flag and the pending list are
untouched, and (unlike the task-failure path) a further dispatch step is
still a legal transition after the operation has already failed. -/
theorem fetchPaged_malformed_page_no_teardown {α : Type}
    (p : String → Option (JsValue α)) (conc : Nat) (s : QState α)
    (u : String) (body : JsValue α) (e v : String) (rest : List String)
    (hu : u ∈ s.running) (hbad : ensureArrayData p u body = .error e)
    (hpend : s.promise = .pend) (hd : s.destroyed = false)
    (hpe : s.pending = v :: rest)
    (hlen : (s.running.erase u).length < conc) :
    QStep p conc s (finishMalformedEffect s u e) ∧
    (finishMalformedEffect s u e).promise = .rejected e ∧
    (finishMalformedEffect s u e).destroyed = false ∧
    (finishMalformedEffect s u e).pending = s.pending ∧
    QStep p conc (finishMalformedEffect s u e)
      (dispatchEffect (finishMalformedEffect s u e) v rest) := by
  refine ⟨QStep.finishMalformed s u body e hu hbad, ?_, hd, rfl, ?_⟩
  · simp [finishMalformedEffect, hpend, settleReject]
  · exact QStep.dispatch _ v rest hd hlen hpe

/-- Witness for `fetchPaged_malformed_page_no_teardown`: a queue with one
pending and one running task; the running task finishes with an
unparseable body. -/
theorem fetchPaged_malformed_page_no_teardown_witness :
    (("u" ∈ (⟨["v"], ["u"], [], false, .pend⟩ : QState Nat).running) ∧
      ensureArrayData (fun _ => (none : Option (JsValue Nat))) "u"
        (.raw "<html>") = .error (malformedMsg "u" "<html>") ∧
      (⟨["v"], ["u"], [], false, .pend⟩ : QState Nat).promise = .pend ∧
      ((["u"] : List String).erase "u").length < 1) ∧
    (QStep (fun _ => (none : Option (JsValue Nat))) 1
        (⟨["v"], ["u"], [], false, .pend⟩ : QState Nat)
        (finishMalformedEffect (⟨["v"], ["u"], [], false, .pend⟩ : QState Nat)
          "u" (malformedMsg "u" "<html>")) ∧
      (finishMalformedEffect (⟨["v"], ["u"], [], false, .pend⟩ : QState Nat)
        "u" (malformedMsg "u" "<html>")).promise =
          .rejected (malformedMsg "u" "<html>") ∧
      (finishMalformedEffect (⟨["v"], ["u"], [], false, .pend⟩ : QState Nat)
        "u" (malformedMsg "u" "<html>")).destroyed = false ∧
      (finishMalformedEffect (⟨["v"], ["u"], [], false, .pend⟩ : QState Nat)
        "u" (malformedMsg "u" "<html>")).pending =
          (⟨["v"], ["u"], [], false, .pend⟩ : QState Nat).pending ∧
      QStep (fun _ => (none : Option (JsValue Nat))) 1
        (finishMalformedEffect (⟨["v"], ["u"], [], false, .pend⟩ : QState Nat)
          "u" (malformedMsg "u" "<html>"))
        (dispatchEffect
          (finishMalformedEffect (⟨["v"], ["u"], [], false, .pend⟩ : QState Nat)
            "u" (malformedMsg "u" "<html>")) "v" [])) :=
  ⟨⟨by decide, rfl, rfl, by decide⟩,
   fetchPaged_malformed_page_no_teardown (fun _ => none) 1
     (⟨["v"], ["u"], [], false, .pend⟩ : QState Nat) "u" (.raw "<html>")
     (malformedMsg "u" "<html>") "v" [] (by decide) rfl rfl rfl rfl
     (by decide)⟩

/-! ### First request and request counting -/

/-- C2 (code bug): when the first, synchronous page request fails, the
promise returned by `fetchPaged` never settles.  The executor passed to
`new Promise` on line 134 is an async function and the `await
axios.get(...)` on line 136 is not guarded, so its rejection rejects the
executor functions own discarded promise instead of the promise under
construction: the operation hangs instead of rejecting with a fetch
error. -/
theorem fetchPaged_first_request_failure_hangs {α : Type}
    (jsonParse : String → Option (JsValue α)) (url : String) (perPage : Nat)
    (e : String) :
    fetchPagedStart jsonParse url perPage (.error e) = .hang ∧
    (∀ msg, (FetchOutcome.hang : FetchOutcome α) ≠ .rejected msg) ∧
    (∀ v, (FetchOutcome.hang : FetchOutcome α) ≠ .resolved v) := by
  refine ⟨rfl, ?_, ?_⟩
  · intro msg h
    exact FetchOutcome.noConfusion h
  · intro v h
    exact FetchOutcome.noConfusion h

/-- C3 counterexample: a first response whose headers report
`x-wp-total: 0` together with `x-wp-totalpages: 5`.  The claim says every
endpoint reporting total-pages `T > 1` gets one task per page 2..T and
exactly `T` requests, but the guard `!totalItems || totalPages <= 1`
(line 146) already resolves when the item total is falsy: only one request
is issued and no task is ever enqueued. -/
theorem fetchPaged_totalPages_counterexample :
    fetchRequestCount (fun _ => (none : Option (JsValue Nat))) "u" 10
      (.ok ⟨some 0, some 5, .arr [1]⟩) = 1 ∧
    fetchPagedStart (fun _ => (none : Option (JsValue Nat))) "u" 10
      (.ok ⟨some 0, some 5, .arr [1]⟩) = .resolved (.arr [1]) ∧
    (1 : Nat) ≠ 5 :=
  ⟨rfl, rfl, by decide⟩

/-- C3 (amended): (a) if the parsed item total is falsy (`0`/`NaN`) or the
parsed page total is `<= 1`, and the first body normalizes, `fetchPaged`
resolves with page 1s normalized records after exactly one request;
(b) if the item total is a positive number and the page total is `T > 1`,
the queue is loaded with one task per page `2..T`, each url carrying the
`per_page` and `page` query parameters, so `T` requests are issued in
total. -/
theorem fetchPaged_request_counts {α : Type}
    (jsonParse : String → Option (JsValue α)) (url : String) (perPage : Nat)
    (res : PageResponse α) :
    (∀ v, (totalItemsFalsy res.totalItems || totalPagesLE1 res.totalPages) = true →
      ensureArrayData jsonParse url res.data = .ok v →
      fetchPagedStart jsonParse url perPage (.ok res) = .resolved v ∧
      fetchRequestCount jsonParse url perPage (.ok res) = 1) ∧
    (∀ v k T, res.totalItems = some (k + 1) → res.totalPages = some T →
      1 < T → ensureArrayData jsonParse url res.data = .ok v →
      fetchPagedStart jsonParse url perPage (.ok res) =
        .fanout v ((List.range' 2 (T - 1)).map (pageUrl url perPage)) ∧
      (pageTasks url perPage res.totalPages).length = T - 1 ∧
      (∀ page, pageUrl url perPage page =
        url ++ "?per_page=" ++ toString perPage ++ "&page=" ++ toString page) ∧
      fetchRequestCount jsonParse url perPage (.ok res) = T) := by
  constructor
  · intro v hcond hok
    have h1 : fetchPagedStart jsonParse url perPage (.ok res) = .resolved v := by
      simp [fetchPagedStart, hok, hcond]
    exact ⟨h1, by simp [fetchRequestCount, h1]⟩
  · intro v k T hitems hpages hT hok
    obtain ⟨ti, tp, dat⟩ := res
    simp only at hitems hpages hok
    subst hitems
    subst hpages
    have hle : totalPagesLE1 (some T) = false := by
      simp [totalPagesLE1]
      omega
    have h1 : fetchPagedStart jsonParse url perPage
        (.ok ⟨some (k + 1), some T, dat⟩) =
        .fanout v ((List.range' 2 (T - 1)).map (pageUrl url perPage)) := by
      simp [fetchPagedStart, hok, hle, pageTasks, totalItemsFalsy]
    refine ⟨h1, ?_, fun page => rfl, ?_⟩
    · simp [pageTasks]
    · simp only [fetchRequestCount, h1, List.length_map, List.length_range']
      omega

/-- Witness for `fetchPaged_request_counts`: a single-page endpoint and a
three-page endpoint with 25 items. -/
theorem fetchPaged_request_counts_witness :
    ((totalItemsFalsy (some 0) || totalPagesLE1 (some 1)) = true ∧
      ensureArrayData (fun _ => (none : Option (JsValue Nat))) "u"
        (.arr [7]) = .ok (.arr [7]) ∧
      (some 25 : Option Nat) = some (24 + 1) ∧ (1 : Nat) < 3) ∧
    (fetchPagedStart (fun _ => (none : Option (JsValue Nat))) "u" 10
        (.ok ⟨some 0, some 1, .arr [7]⟩) = .resolved (.arr [7]) ∧
      fetchRequestCount (fun _ => (none : Option (JsValue Nat))) "u" 10
        (.ok ⟨some 0, some 1, .arr [7]⟩) = 1) ∧
    (fetchPagedStart (fun _ => (none : Option (JsValue Nat))) "u" 10
        (.ok ⟨some 25, some 3, .arr [7]⟩) =
        .fanout (.arr [7]) ((List.range' 2 2).map (pageUrl "u" 10)) ∧
      fetchRequestCount (fun _ => (none : Option (JsValue Nat))) "u" 10
        (.ok ⟨some 25, some 3, .arr [7]⟩) = 3) := by
  have ha := (fetchPaged_request_counts (fun _ => (none : Option (JsValue Nat)))
    "u" 10 ⟨some 0, some 1, .arr [7]⟩).1 (.arr [7]) rfl rfl
  have hb := (fetchPaged_request_counts (fun _ => (none : Option (JsValue Nat)))
    "u" 10 ⟨some 25, some 3, .arr [7]⟩).2 (.arr [7]) 24 3 rfl rfl
    (by decide) rfl
  exact ⟨⟨rfl, rfl, rfl, by decide⟩, ha, hb.1, hb.2.2.2⟩

/-! ### Response normalization and stable identifiers -/

/-- C4: `ensureArrayData` returns an array body as-is; a raw body that does
not parse as JSON raises the malformed-response error, whose message names
the source url and carries the trimmed body truncated to at most 150
characters. -/
theorem ensureArrayData_normalizes {α : Type}
    (jsonParse : String → Option (JsValue α)) (url : String) (rs : List α)
    (s : String) :
    ensureArrayData jsonParse url (.arr rs) = .ok (.arr rs) ∧
    (jsonParse s = none →
      ensureArrayData jsonParse url (.raw s) = .error (malformedMsg url s) ∧
      malformedMsg url s = "Failed to fetch " ++ url ++ "\n" ++
        "Expected JSON response but got:\n" ++ (s.trim.take 150) ++ "...\n" ∧
      (s.trim.take 150).length ≤ 150) := by
  refine ⟨rfl, fun hp => ⟨?_, rfl, ?_⟩⟩
  · simp [ensureArrayData, hp]
  · rw [String.take_eq]
    show (List.take 150 s.trim.data).length ≤ 150
    rw [List.length_take]
    exact Nat.min_le_left _ _

/-- Witness for `ensureArrayData_normalizes`: a 200-status body that is the
literal text `<html>Error</html>` yields the malformed-response error with
that text in the preview. -/
theorem ensureArrayData_normalizes_witness :
    ((fun _ => (none : Option (JsValue Nat))) "<html>Error</html>" = none) ∧
    (ensureArrayData (fun _ => (none : Option (JsValue Nat))) "https://s/posts"
        (.arr [3]) = .ok (.arr [3]) ∧
      ensureArrayData (fun _ => (none : Option (JsValue Nat))) "https://s/posts"
        (.raw "<html>Error</html>") =
        .error (malformedMsg "https://s/posts" "<html>Error</html>") ∧
      malformedMsg "https://s/posts" "<html>Error</html>" =
        "Failed to fetch " ++ "https://s/posts" ++ "\n" ++
        "Expected JSON response but got:\n" ++
        (("<html>Error</html>" : String).trim.take 150) ++ "...\n" ∧
      (("<html>Error</html>" : String).trim.take 150).length ≤ 150) :=
  ⟨rfl,
   (ensureArrayData_normalizes (fun _ => none) "https://s/posts" [3]
      "<html>Error</html>").1,
   (ensureArrayData_normalizes (fun _ => (none : Option (JsValue Nat)))
      "https://s/posts" [3] "<html>Error</html>").2 rfl⟩

/-- C5: the namespace prefixes make the raw id strings of a content item
and of a taxonomy term with the same remote numeric id distinct before the
stores id-normalization is applied; consequently, whenever `makeUid` is
injective, the resulting stable ids are distinct too. -/
theorem post_term_ids_never_collide (makeUid : String → String)
    (hinj : Function.Injective makeUid) (id : Nat) :
    makePostIdRaw id ≠ makeTermIdRaw id ∧
    makePostId makeUid id ≠ makeTermId makeUid id := by
  have hraw : makePostIdRaw id ≠ makeTermIdRaw id := by
    intro h
    have h2 := congrArg String.data h
    simp [makePostIdRaw, makeTermIdRaw, String.data_append] at h2
  exact ⟨hraw, fun h => hraw (hinj h)⟩

/-- Witness for `post_term_ids_never_collide` with the identity
normalization and remote id 7. -/
theorem post_term_ids_never_collide_witness :
    Function.Injective (fun s : String => s) ∧
    (makePostIdRaw 7 ≠ makeTermIdRaw 7 ∧
      makePostId (fun s => s) 7 ≠ makeTermId (fun s => s) 7) :=
  ⟨fun _ _ h => h, post_term_ids_never_collide (fun s => s) (fun _ _ h => h) 7⟩

/-! ### Reference resolution -/

lemma lookup_eq_none_of_not_mem_keys {β : Type} (l : List (String × β))
    (k : String) (h : k ∉ l.map Prod.fst) : l.lookup k = none := by
  induction l with
  | nil => rfl
  | cons a t ih =>
    obtain ⟨k2, v⟩ := a
    simp only [List.map_cons, List.mem_cons, not_or] at h
    simp only [List.lookup_cons, beq_eq_false_iff_ne.mpr h.1]
    exact ih h.2

lemma buildRefs_key_mem {taxes : List (String × String)}
    {lookup : String → Option (List Nat)} {mk : String → String}
    {x : String × List String} (hx : x ∈ buildRefs taxes lookup mk) :
    x.1 ∈ taxes.map Prod.fst := by
  rw [buildRefs, List.mem_filterMap] at hx
  obtain ⟨tb, htb, heq⟩ := hx
  cases hl : lookup tb.2 with
  | none => rw [hl] at heq; exact absurd heq (by simp)
  | some ids =>
    rw [hl] at heq
    simp only [Option.some.injEq] at heq
    have hfst : x.1 = tb.1 := by rw [← heq]
    rw [hfst]
    exact List.mem_map_of_mem Prod.fst htb

lemma buildRefs_lookup (taxes : List (String × String))
    (lookup : String → Option (List Nat)) (mk : String → String)
    (ty prop : String) (hnd : (taxes.map Prod.fst).Nodup)
    (hmem : (ty, prop) ∈ taxes) :
    (buildRefs taxes lookup mk).lookup ty
      = (lookup prop).map (fun ids => ids.map (makeTermId mk)) := by
  induction taxes with
  | nil => cases hmem
  | cons tb rest ih =>
    obtain ⟨ty2, prop2⟩ := tb
    simp only [List.map_cons, List.nodup_cons] at hnd
    rcases List.mem_cons.mp hmem with heq | hmem2
    · cases heq
      cases hl : lookup prop with
      | some ids => simp [buildRefs, hl, List.lookup]
      | none =>
        have hnone : (buildRefs rest lookup mk).lookup ty = none := by
          apply lookup_eq_none_of_not_mem_keys
          intro hk
          rw [List.mem_map] at hk
          obtain ⟨x, hx, hfst⟩ := hk
          exact hnd.1 (hfst ▸ buildRefs_key_mem hx)
        have hstep : buildRefs ((ty, prop) :: rest) lookup mk
            = buildRefs rest lookup mk := by
          simp [buildRefs, List.filterMap_cons, hl]
        simp [hstep, hnone, hl]
    · have hty : ty ∈ rest.map Prod.fst := by
        have := List.mem_map_of_mem Prod.fst hmem2
        simpa using this
      have hne : ty ≠ ty2 := fun h => hnd.1 (h ▸ hty)
      cases hl : lookup prop2 with
      | some ids =>
        simp only [buildRefs, List.filterMap_cons, hl]
        simp only [List.lookup_cons, beq_eq_false_iff_ne.mpr hne]
        exact ih hnd.2 hmem2
      | none =>
        simp only [buildRefs, List.filterMap_cons, hl]
        exact ih hnd.2 hmem2

/-- C6: for a known taxonomy `(ty, prop)` (discovered type key `ty` with
reference property `prop`), the `refs` object of the node built for a
content record has key `ty` exactly when the record has property `prop`,
and its value then maps each listed remote id to the term-namespace stable
id.  Absent properties contribute no key. -/
theorem post_refs_present_iff_property (taxes : List (String × String))
    (makeUid : String → String) (post : PostRecord) (ty prop : String)
    (hnd : (taxes.map Prod.fst).Nodup) (hmem : (ty, prop) ∈ taxes) :
    ((postToNode taxes makeUid post).2.refs).lookup ty
      = (post.props.lookup prop).map (fun ids => ids.map (makeTermId makeUid)) ∧
    (((postToNode taxes makeUid post).2.refs).lookup ty).isSome
      = (post.props.lookup prop).isSome := by
  have h := buildRefs_lookup taxes (fun pr => post.props.lookup pr) makeUid
    ty prop hnd hmem
  have hrefs : (postToNode taxes makeUid post).2.refs
      = buildRefs taxes (fun pr => post.props.lookup pr) makeUid := rfl
  rw [hrefs, h]
  exact ⟨rfl, by simp⟩

/-- Witness for `post_refs_present_iff_property`: taxonomy `category` with
reference property `categories`; a record listing ids `[3, 7]` gets
`refs.category = [term-3, term-7]`, a record without the property gets no
`category` key. -/
theorem post_refs_present_iff_property_witness :
    (((([("category", "categories")] : List (String × String)).map
        Prod.fst).Nodup) ∧
      (("category", "categories") ∈
        ([("category", "categories")] : List (String × String)))) ∧
    ((postToNode [("category", "categories")] (fun s => s)
        (samplePost 1 "post" "a" [("categories", [3, 7])])).2.refs).lookup
        "category" = some ["term-3", "term-7"] ∧
    ((postToNode [("category", "categories")] (fun s => s)
        (samplePost 2 "post" "b" [])).2.refs).lookup "category" = none := by
  refine ⟨⟨by decide, by decide⟩, ?_, ?_⟩
  · rw [(post_refs_present_iff_property [("category", "categories")]
      (fun s => s) (samplePost 1 "post" "a" [("categories", [3, 7])])
      "category" "categories" (by decide) (by decide)).1]
    rfl
  · rw [(post_refs_present_iff_property [("category", "categories")]
      (fun s => s) (samplePost 2 "post" "b" []) "category" "categories"
      (by decide) (by decide)).1]
    rfl

/-! ### Determinism of the pipeline and typeKey of addNode -/

lemma forall2_perm_flatten {α : Type} {l1 l2 : List (List α)}
    (h : List.Forall₂ List.Perm l1 l2) : l1.flatten.Perm l2.flatten := by
  induction h with
  | nil => exact List.Perm.refl _
  | cons hab _ ih =>
    simp only [List.flatten_cons]
    exact hab.append ih

/-- C7: two `apply` runs over identical remote data — where each endpoints
fetched record sequence may differ only by the completion order of its
pages, i.e. the per-endpoint sequences are permutations of each other —
emit the same multiset of `addNode` calls, and in particular the same
multiset (hence set) of stable ids and node field values. -/
theorem apply_deterministic (taxes : List (String × String))
    (makeUid : String → String) (P1 P2 : List (List PostRecord))
    (T1 T2 : List (List TermRecord)) (hP : List.Forall₂ List.Perm P1 P2)
    (hT : List.Forall₂ List.Perm T1 T2) :
    (applyNodes taxes makeUid P1 T1).Perm (applyNodes taxes makeUid P2 T2) ∧
    ((applyNodes taxes makeUid P1 T1).map emissionId).Perm
      ((applyNodes taxes makeUid P2 T2).map emissionId) := by
  have hperm : (applyNodes taxes makeUid P1 T1).Perm
      (applyNodes taxes makeUid P2 T2) := by
    unfold applyNodes
    exact ((forall2_perm_flatten hP).map _).append ((forall2_perm_flatten hT).map _)
  exact ⟨hperm, hperm.map _⟩

/-- Witness for `apply_deterministic`: one content endpoint whose two pages
complete in opposite orders across the two runs. -/
theorem apply_deterministic_witness :
    (List.Forall₂ List.Perm
      [[samplePost 1 "post" "a" [], samplePost 2 "post" "b" []]]
      [[samplePost 2 "post" "b" [], samplePost 1 "post" "a" []]] ∧
      List.Forall₂ List.Perm ([] : List (List TermRecord)) []) ∧
    (applyNodes [] (fun s => s)
      [[samplePost 1 "post" "a" [], samplePost 2 "post" "b" []]] []).Perm
      (applyNodes [] (fun s => s)
        [[samplePost 2 "post" "b" [], samplePost 1 "post" "a" []]] []) :=
  ⟨⟨List.Forall₂.cons (by decide) List.Forall₂.nil, List.Forall₂.nil⟩,
   (apply_deterministic [] (fun s => s) _ _ [] []
      (List.Forall₂.cons (by decide) List.Forall₂.nil) List.Forall₂.nil).1⟩

/-- C8 counterexample: a record whose own `type` property is `page`,
fetched while processing the endpoint discovered under type key `post`, is
emitted with typeKey `page`: `addNode` receives `post.type` (index.js line
91), not the endpoints discovered type key. -/
theorem addNode_typeKey_counterexample :
    (postEndpointEmissions "post" [] (fun s => s)
      [samplePost 1 "page" "s" []]).map emissionTypeKey
      = ["page"] ∧ ("page" : String) ≠ "post" :=
  ⟨rfl, by decide⟩

/-- C8 (amended): the typeKey argument of every `addNode` call is the
records own `type` property (content records) or `taxonomy` property (term
records); it equals the endpoints discovered type key exactly when the
record reports that key, in particular for every record fetched from a
conforming API. -/
theorem addNode_typeKey_is_record_type (typeName : String)
    (taxes : List (String × String)) (makeUid : String → String)
    (records : List PostRecord) (ttypeName : String)
    (trecords : List TermRecord) :
    (postEndpointEmissions typeName taxes makeUid records).map emissionTypeKey
      = records.map PostRecord.type ∧
    (termEndpointEmissions ttypeName makeUid trecords).map emissionTypeKey
      = trecords.map TermRecord.taxonomy ∧
    ((∀ r ∈ records, r.type = typeName) →
      ∀ e ∈ postEndpointEmissions typeName taxes makeUid records,
        emissionTypeKey e = typeName) := by
  refine ⟨?_, ?_, ?_⟩
  · simp only [postEndpointEmissions, List.map_map]
    rfl
  · simp only [termEndpointEmissions, List.map_map]
    rfl
  · intro hall e he
    simp only [postEndpointEmissions, List.mem_map] at he
    obtain ⟨r, hr, hre⟩ := he
    rw [← hre]
    exact hall r hr

/-- Witness for `addNode_typeKey_is_record_type`: one conforming record on
the `post` endpoint. -/
theorem addNode_typeKey_is_record_type_witness :
    (∀ r ∈ [samplePost 1 "post" "s" []], r.type = "post") ∧
    ((postEndpointEmissions "post" [] (fun s => s)
        [samplePost 1 "post" "s" []]).map emissionTypeKey
      = [samplePost 1 "post" "s" []].map PostRecord.type ∧
      ∀ e ∈ postEndpointEmissions "post" [] (fun s => s)
          [samplePost 1 "post" "s" []],
        emissionTypeKey e = "post") := by
  have h := addNode_typeKey_is_record_type "post" [] (fun s => s)
    [samplePost 1 "post" "s" []] "t" []
  exact ⟨by decide, h.1, h.2.2 (by decide)⟩
